import Mathlib

/-!
Shallow embedding of the beetle_bits crate (src/bit.rs, src/nibble.rs,
src/u1.rs, src/f3.rs, src/lib.rs) and proofs about its claims.

Machine integers of the source are modelled as Nat/Int; the Rust enum Bit
becomes a two-constructor inductive; panicking operations return Option
(none models a panic); the unconditionally recursive PartialEq of f3 is
modelled with an explicit fuel parameter, none modelling the stack
overflow that the recursion produces at every depth.
-/

/-- Embedding of the Rust enum Bit from src/bit.rs: one bit of information. -/
inductive Bit where
  | Zero : Bit
  | One : Bit
deriving DecidableEq, Repr

/-- Embedding of Bit::is_one from src/bit.rs. -/
def Bit.is_one : Bit → Bool
  | Bit.Zero => false
  | Bit.One => true

/-- Embedding of the Not impl for Bit from src/bit.rs. -/
def Bit.not : Bit → Bit
  | Bit.Zero => Bit.One
  | Bit.One => Bit.Zero

/-- Embedding of the BitAnd impl for Bit from src/bit.rs: One only when both are One. -/
def Bit.and : Bit → Bit → Bit
  | Bit.One, Bit.One => Bit.One
  | _, _ => Bit.Zero

/-- Embedding of Bit::nand from src/bit.rs: the negation of and. -/
def Bit.nand (a b : Bit) : Bit := (a.and b).not

/-- Embedding of the BitOr impl for Bit from src/bit.rs, which is written
as the nand of the two negations. -/
def Bit.or (a b : Bit) : Bit := (a.not).nand (b.not)

/-- Embedding of the BitXor impl for Bit from src/bit.rs, which is written
as (self or rhs) and (self nand rhs). -/
def Bit.xor (a b : Bit) : Bit := (a.or b).and (a.nand b)

/-- Embedding of Bit::add from src/bit.rs: the full adder returning (sum, carry_out).
The local names x, y, z correspond to the a, b, c of the source body. -/
def Bit.add (self other carry_in : Bit) : Bit × Bit :=
  let x := self.xor other
  let y := self.and other
  let z := x.and carry_in
  (x.xor carry_in, z.or y)

/-- Embedding of the From Bit for the primitive integer types of src/bit.rs:
Zero maps to 0 and One maps to 1. -/
def Bit.toNat : Bit → Nat
  | Bit.Zero => 0
  | Bit.One => 1

/-- Embedding of the struct Nibble from src/nibble.rs: an array of 4 Bits,
field bitsI modelling self.0[I]. -/
structure Nibble where
  bits0 : Bit
  bits1 : Bit
  bits2 : Bit
  bits3 : Bit
deriving DecidableEq, Repr

/-- Embedding of the From Nibble for i8 impl of src/nibble.rs: index 0 carries
weight -8, so index 0 is the most significant, sign-bearing position. -/
def Nibble.toI8 (value : Nibble) : Int :=
  (if value.bits0.is_one then (-8 : Int) else 0)
    + (if value.bits1.is_one then 4 else 0)
    + (if value.bits2.is_one then 2 else 0)
    + (if value.bits3.is_one then 1 else 0)

/-- Embedding of the Not impl for Nibble from src/nibble.rs: every bit inverted. -/
def Nibble.bitnot (self : Nibble) : Nibble :=
  ⟨self.bits0.not, self.bits1.not, self.bits2.not, self.bits3.not⟩

/-- Embedding of Nibble::add from src/nibble.rs: Bit::add applied at index 0
first with the caller's carry_in, then indices 1, 2, 3, threading the carry;
the carry out of index 3 is returned. -/
def Nibble.add (self other : Nibble) (carry_in : Bit) : Nibble × Bit :=
  let r1 := self.bits0.add other.bits0 carry_in
  let r2 := self.bits1.add other.bits1 r1.2
  let r3 := self.bits2.add other.bits2 r2.2
  let r4 := self.bits3.add other.bits3 r3.2
  (⟨r1.1, r2.1, r3.1, r4.1⟩, r4.2)

/-- Embedding of the Sub impl for Nibble from src/nibble.rs:
self.add(not rhs, One). -/
def Nibble.sub (self rhs : Nibble) : Nibble × Bit :=
  self.add rhs.bitnot Bit.One

/-- Embedding of the struct u1 from src/u1.rs: an unsigned 1-bit integer
wrapping a bool. -/
structure u1 where
  val : Bool
deriving DecidableEq, Repr

/-- Embedding of the constant b0 from src/u1.rs. -/
def b0 : u1 := ⟨false⟩

/-- Embedding of the constant b1 from src/u1.rs. -/
def b1 : u1 := ⟨true⟩

/-- Embedding of the is_zero method of the Zero impl for u1 from src/u1.rs. -/
def u1.is_zero (self : u1) : Bool := !self.val

/-- Embedding of the Add impl for u1 from src/u1.rs; none models the
panic on the (b1, b1) overflow arm. -/
def u1.add : u1 → u1 → Option u1
  | ⟨false⟩, ⟨false⟩ => some b0
  | ⟨true⟩, ⟨true⟩ => none
  | _, _ => some b1

/-- Embedding of the Sub impl for u1 from src/u1.rs; none models the
panic on the (b0, b1) underflow arm. -/
def u1.sub : u1 → u1 → Option u1
  | ⟨false⟩, ⟨false⟩ => some b0
  | ⟨true⟩, ⟨true⟩ => some b0
  | ⟨true⟩, ⟨false⟩ => some b1
  | ⟨false⟩, ⟨true⟩ => none

/-- Embedding of the Mul impl for u1 from src/u1.rs: total, b1 only for (b1, b1). -/
def u1.mul : u1 → u1 → u1
  | ⟨true⟩, ⟨true⟩ => b1
  | _, _ => b0

/-- Embedding of the Div impl for u1 from src/u1.rs; none models the
panic on any divisor equal to b0. -/
def u1.div : u1 → u1 → Option u1
  | _, ⟨false⟩ => none
  | ⟨false⟩, ⟨true⟩ => some b0
  | ⟨true⟩, ⟨true⟩ => some b1

/-- Embedding of the Rem impl for u1 from src/u1.rs; none models the
panic when rhs.is_zero(), otherwise the result is b0. -/
def u1.rem (_self rhs : u1) : Option u1 :=
  if rhs.is_zero then none else some b0

/-- Embedding of the struct f3 from src/f3.rs: sign, exponent and mantissa bits. -/
structure f3 where
  sign : Bit
  exponent : Bit
  mantissa : Bit
deriving DecidableEq, Repr

/-- Embedding of the constant f3::ZERO from src/f3.rs. -/
def f3.ZERO : f3 := ⟨Bit.Zero, Bit.Zero, Bit.Zero⟩

/-- Embedding of the constant f3::ONE from src/f3.rs. -/
def f3.ONE : f3 := ⟨Bit.Zero, Bit.Zero, Bit.One⟩

/-- Embedding of the constant f3::INFINITY from src/f3.rs. -/
def f3.INFINITY : f3 := ⟨Bit.Zero, Bit.One, Bit.Zero⟩

/-- Embedding of the constant f3::NAN from src/f3.rs (the positive NaN bucket). -/
def f3.NAN : f3 := ⟨Bit.Zero, Bit.One, Bit.One⟩

/-- Embedding of the constant f3::NEG_ZERO from src/f3.rs. -/
def f3.NEG_ZERO : f3 := ⟨Bit.One, Bit.Zero, Bit.Zero⟩

/-- Embedding of the constant f3::NEG_ONE from src/f3.rs. -/
def f3.NEG_ONE : f3 := ⟨Bit.One, Bit.Zero, Bit.One⟩

/-- Embedding of the constant f3::NEG_INFINITY from src/f3.rs. -/
def f3.NEG_INFINITY : f3 := ⟨Bit.One, Bit.One, Bit.Zero⟩

/-- Embedding of the constant f3::NEG_NAN from src/f3.rs (the negative NaN bucket). -/
def f3.NEG_NAN : f3 := ⟨Bit.One, Bit.One, Bit.One⟩

/-- Embedding of the Neg impl for f3 from src/f3.rs: the sign bit is inverted,
exponent and mantissa are copied unchanged, with no conversion through f32. -/
def f3.neg (self : f3) : f3 := ⟨self.sign.not, self.exponent, self.mantissa⟩

/-- Model of the IEEE-754 f32 values that the f3 code observes: a finite value
given by a sign bit and a nonnegative rational magnitude, a signed infinity, or
a signed NaN. The sign bit true means negative, so fin true 0 is the native
value -0.0 and fin false 0 is +0.0. -/
inductive F32 where
  | fin (sign : Bool) (mag : ℚ)
  | inf (sign : Bool)
  | nan (sign : Bool)
deriving DecidableEq, Repr

/-- Numeric value of a sign bit and a magnitude; both zeros have value 0. -/
def F32.qval (sign : Bool) (mag : ℚ) : ℚ := if sign then -mag else mag

/-- Model of the IEEE-754 equality operator on f32: NaN is never equal,
infinities compare by sign, finite values compare by numeric value, so the
two zeros are equal to each other. -/
def F32.beq : F32 → F32 → Bool
  | F32.nan _, _ => false
  | _, F32.nan _ => false
  | F32.inf s, F32.inf t => s == t
  | F32.inf _, F32.fin _ _ => false
  | F32.fin _ _, F32.inf _ => false
  | F32.fin s m, F32.fin t k => decide (F32.qval s m = F32.qval t k)

/-- Model of the IEEE-754 strict less-than on f32: false whenever a NaN is
involved, otherwise the numeric order with the infinities at the two ends. -/
def F32.lt : F32 → F32 → Bool
  | F32.nan _, _ => false
  | _, F32.nan _ => false
  | F32.inf s, F32.inf t => s && !t
  | F32.inf s, F32.fin _ _ => s
  | F32.fin _ _, F32.inf t => !t
  | F32.fin s m, F32.fin t k => decide (F32.qval s m < F32.qval t k)

/-- Model of the IEEE-754 strict greater-than on f32. -/
def F32.gt (a rhs : F32) : Bool := F32.lt rhs a

/-- Model of f32::is_sign_positive: reads the sign bit, also of zeros and NaNs. -/
def F32.is_sign_positive : F32 → Bool
  | F32.fin s _ => !s
  | F32.inf s => !s
  | F32.nan s => !s

/-- Embedding of the From f32 for f3 impl from src/f3.rs: the chain of
comparisons against INFINITY, NEG_INFINITY, the literal 0., the literal -0.,
1., -1., then the range tests against 1. and -1., then is_sign_positive,
each comparison being the native f32 operator modelled by F32.beq, F32.gt
and F32.lt. -/
def f3_from_f32 (value : F32) : f3 :=
  if F32.beq value (F32.inf false) then f3.INFINITY
  else if F32.beq value (F32.inf true) then f3.NEG_INFINITY
  else if F32.beq value (F32.fin false 0) then f3.ZERO
  else if F32.beq value (F32.fin true 0) then f3.NEG_ZERO
  else if F32.beq value (F32.fin false 1) then f3.ONE
  else if F32.beq value (F32.fin true 1) then f3.NEG_ONE
  else if F32.gt value (F32.fin false 1) then f3.INFINITY
  else if F32.lt value (F32.fin true 1) then f3.NEG_INFINITY
  else if F32.is_sign_positive value then f3.NAN
  else f3.NEG_NAN

/-- Exact rational value of the f32 literal 0.3: the nearest f32 to 3/10
is 10066330 times 2 to the power -25. Its classification by f3_from_f32
depends only on it lying strictly between 0 and 1. -/
def f32_lit_0_3 : ℚ := mkRat 10066330 33554432

/-- Embedding of the PartialEq impl for f3 from src/f3.rs with an explicit
fuel bound on the recursion depth. The source computes
contains of the list of the six doubled non-NaN constants applied to the
pair (self, other); slice contains compares each listed pair [c, c] with the
needle [a, b] element-wise, and element comparison is this very eq again, so
each comparison recurses with fuel decreased by one; none models exceeding
any finite recursion depth, that is, the stack overflow of the source. -/
def f3.eqF : Nat → f3 → f3 → Option Bool
  | 0, _, _ => none
  | Nat.succ n, a, b =>
    let pe : f3 → Option Bool := fun c =>
      (f3.eqF n c a).bind fun r1 =>
        if r1 then f3.eqF n c b else some false
    (pe f3.ONE).bind fun q1 => if q1 then some true else
    (pe f3.NEG_ONE).bind fun q2 => if q2 then some true else
    (pe f3.ZERO).bind fun q3 => if q3 then some true else
    (pe f3.NEG_ZERO).bind fun q4 => if q4 then some true else
    (pe f3.INFINITY).bind fun q5 => if q5 then some true else
    (pe f3.NEG_INFINITY).bind fun q6 => if q6 then some true else
    some false

/-- Embedding of the earlier PartialEq impl for f3 from src/lib.rs with an
explicit fuel bound. Each branch compares the pair [self, other] with a
doubled constant pair, and that array comparison calls this eq on each
component, so every branch recurses; the is_zero calls are themselves
comparisons with ZERO through this eq. none models exceeding any finite
recursion depth. -/
def f3.eqLibF : Nat → f3 → f3 → Option Bool
  | 0, _, _ => none
  | Nat.succ n, a, b =>
    (f3.eqLibF n a f3.NAN).bind fun r1 =>
    (if r1 then f3.eqLibF n b f3.NAN else some false).bind fun p1 =>
    if p1 then some false else
    (f3.eqLibF n a f3.ZERO).bind fun z1 =>
    (if z1 then f3.eqLibF n b f3.ZERO else some false).bind fun p2 =>
    if p2 then some true else
    (f3.eqLibF n a f3.ONE).bind fun o1 =>
    (if o1 then f3.eqLibF n b f3.ONE else some false).bind fun p3 =>
    if p3 then some true else
    (f3.eqLibF n a f3.NEG_ONE).bind fun m1 =>
    (if m1 then f3.eqLibF n b f3.NEG_ONE else some false).bind fun p4 =>
    if p4 then some true else
    (f3.eqLibF n a f3.NEG_INFINITY).bind fun i1 =>
    (if i1 then f3.eqLibF n b f3.NEG_INFINITY else some false).bind fun p5 =>
    if p5 then some true else
    (f3.eqLibF n a f3.INFINITY).bind fun i2 =>
    (if i2 then f3.eqLibF n b f3.INFINITY else some false).bind fun p6 =>
    if p6 then some true else some false

/-- Embedding of the From f3 for f32 impl from src/f3.rs: the chain of
comparisons of val with the eight constants, each through the PartialEq
impl for f3, here the fuel-bounded f3.eqF; none models a comparison that
overflows the stack. The negated native NaN is modelled as nan true. -/
def f3.toF32F (n : Nat) (val : f3) : Option F32 :=
  (f3.eqF n val f3.ZERO).bind fun r1 => if r1 then some (F32.fin false 0) else
  (f3.eqF n val f3.NEG_ZERO).bind fun r2 => if r2 then some (F32.fin true 0) else
  (f3.eqF n val f3.ONE).bind fun r3 => if r3 then some (F32.fin false 1) else
  (f3.eqF n val f3.NEG_ONE).bind fun r4 => if r4 then some (F32.fin true 1) else
  (f3.eqF n val f3.INFINITY).bind fun r5 => if r5 then some (F32.inf false) else
  (f3.eqF n val f3.NEG_INFINITY).bind fun r6 => if r6 then some (F32.inf true) else
  (f3.eqF n val f3.NEG_NAN).bind fun r7 => if r7 then some (F32.nan true) else
  some (F32.nan false)

/-- Embedding of the common shape of the Add, Sub, Mul, Div and Rem impls
for f3 from src/f3.rs: both operands are converted to f32 through the From
f3 for f32 impl, the native operator op is applied, and the result is
decoded through the From f32 for f3 impl. The native operator is a
parameter: the five operators differ only in it. -/
def f3.binopF (op : F32 → F32 → F32) (n : Nat) (a rhs : f3) : Option f3 :=
  (f3.toF32F n a).bind fun x =>
  (f3.toF32F n rhs).bind fun y =>
  some (f3_from_f32 (op x y))

theorem f3_eqF_none (n : Nat) : ∀ a b : f3, f3.eqF n a b = none := by
  induction n with
  | zero => intro a b; rfl
  | succ n ih => intro a b; simp [f3.eqF, ih]

theorem f3_eqLibF_none (n : Nat) : ∀ a b : f3, f3.eqLibF n a b = none := by
  induction n with
  | zero => intro a b; rfl
  | succ n ih => intro a b; simp [f3.eqLibF, ih]

theorem f3_toF32F_none (n : Nat) (v : f3) : f3.toF32F n v = none := by
  simp [f3.toF32F, f3_eqF_none]

theorem f3_binopF_none (op : F32 → F32 → F32) (n : Nat) (a b : f3) :
    f3.binopF op n a b = none := by
  simp [f3.binopF, f3_toF32F_none]

/-- C1: the claim fails on the code. Nibble::add threads the carry starting
at index 0, but the From Nibble for i8 impl gives index 0 the weight -8, so
the ripple carry runs from the most significant toward the least significant
position. At the concrete input a = b = the nibble with i8 value 1 and
carry_in Zero, the code returns the nibble with i8 value 0 together with
carry_out One, while the wrapped sum of 1 and 1 is 2 and lies inside
[-8, 7], so the claim requires i8 value 2 with carry_out Zero. -/
theorem nibble_add_endianness_eval :
    Nibble.toI8 ⟨Bit.Zero, Bit.Zero, Bit.Zero, Bit.One⟩ = 1 ∧
    Nibble.add ⟨Bit.Zero, Bit.Zero, Bit.Zero, Bit.One⟩
        ⟨Bit.Zero, Bit.Zero, Bit.Zero, Bit.One⟩ Bit.Zero
      = (⟨Bit.Zero, Bit.Zero, Bit.Zero, Bit.Zero⟩, Bit.One) ∧
    (Nibble.add ⟨Bit.Zero, Bit.Zero, Bit.Zero, Bit.One⟩
        ⟨Bit.Zero, Bit.Zero, Bit.Zero, Bit.One⟩ Bit.Zero).1.toI8 ≠ (2 : Int) ∧
    (Nibble.add ⟨Bit.Zero, Bit.Zero, Bit.Zero, Bit.One⟩
        ⟨Bit.Zero, Bit.Zero, Bit.Zero, Bit.One⟩ Bit.Zero).2 ≠ Bit.Zero := by
  decide

/-- C2: the claim fails on the code. The PartialEq impl for f3 compares the
pair of operands with arrays of f3 pairs, and that array comparison calls the
same eq on each component, so every equality test recurses unconditionally:
for every finite recursion depth n the fuel-bounded embedding returns none,
modelling the stack overflow. The From f3 for f32 impl performs such
comparisons, and every arithmetic operator converts through it, so equality,
conversion to f32 and all five operators diverge on every input instead of
being total. -/
theorem f3_operations_diverge :
    ∀ (n : Nat) (a b : f3) (op : F32 → F32 → F32),
      f3.eqF n a b = none ∧ f3.toF32F n a = none ∧ f3.binopF op n a b = none :=
  fun n a b op => ⟨f3_eqF_none n a b, f3_toF32F_none n a, f3_binopF_none op n a b⟩

/-- C3: confirmed. For all bits a, b and c, Bit::add returns the pair whose
first component is the xor of the three inputs, whose second component is One
exactly when at least two of the inputs are One (the majority), and which
encodes the 2-bit binary sum of the three inputs, over all 8 cases. -/
theorem bit_add_full_adder :
    ∀ a b c : Bit,
      (Bit.add a b c).1 = (a.xor b).xor c ∧
      ((Bit.add a b c).2 = Bit.One ↔ 2 ≤ a.toNat + b.toNat + c.toNat) ∧
      (Bit.add a b c).1.toNat + 2 * (Bit.add a b c).2.toNat
        = a.toNat + b.toNat + c.toNat := by
  intro a b c
  cases a <;> cases b <;> cases c <;> decide

/-- C4: the claim fails on the code. Both revisions of the PartialEq impl for
f3 recurse unconditionally through the component-wise comparison of f3 arrays
and therefore never return on any input: at every finite recursion depth the
fuel-bounded embeddings return none, also at the concrete inputs ZERO
compared with NEG_ZERO (where the claim requires true) and NAN compared with
itself (where the claim requires false). -/
theorem f3_eq_diverges :
    ∀ n : Nat,
      f3.eqF n f3.ZERO f3.NEG_ZERO = none ∧
      f3.eqF n f3.NAN f3.NAN = none ∧
      f3.eqLibF n f3.ZERO f3.NEG_ZERO = none ∧
      ∀ a b : f3, f3.eqF n a b = none ∧ f3.eqLibF n a b = none :=
  fun n =>
    ⟨f3_eqF_none n f3.ZERO f3.NEG_ZERO,
     f3_eqF_none n f3.NAN f3.NAN,
     f3_eqLibF_none n f3.ZERO f3.NEG_ZERO,
     fun a b => ⟨f3_eqF_none n a b, f3_eqLibF_none n a b⟩⟩

/-- C5: the claim fails on the code. The decode chain tests value == 0.
before value == -0., and the native equality of f32 treats -0.0 as equal to
0.0, so the input -0.0 (modelled as the finite value with sign bit set and
magnitude 0) takes the ZERO branch: decoding -0.0 yields POS_ZERO, not
NEG_ZERO, and the -0. branch is unreachable. Decoding +0.0 does yield
POS_ZERO as claimed. -/
theorem f3_decode_neg_zero_eval :
    f3_from_f32 (F32.fin true 0) = f3.ZERO ∧
    f3_from_f32 (F32.fin false 0) = f3.ZERO ∧
    f3_from_f32 (F32.fin true 0) ≠ f3.NEG_ZERO := by
  decide

/-- C6 counterexample: at a = b = Zero the claim fails: or Zero Zero is Zero,
but not (nand (not Zero) (not Zero)) is One, so the claimed identity with the
outer negation does not hold (the right-hand side is the nor gate). -/
theorem bit_or_nand_claim_false :
    Bit.or Bit.Zero Bit.Zero ≠ (Bit.nand (Bit.not Bit.Zero) (Bit.not Bit.Zero)).not := by
  decide

/-- C6 amended: for all bits a and b, or a b equals nand (not a) (not b)
with no outer negation, and xor a b equals (or a b) and (nand a b); moreover
or and xor realise the standard truth tables of disjunction and exclusive
disjunction, over all 4 input combinations. -/
theorem bit_gate_derivations :
    ∀ a b : Bit,
      a.or b = (a.not).nand (b.not) ∧
      a.xor b = (a.or b).and (a.nand b) ∧
      (a.or b = Bit.One ↔ (a = Bit.One ∨ b = Bit.One)) ∧
      (a.xor b = Bit.One ↔ a ≠ b) := by
  intro a b
  cases a <;> cases b <;> decide

/-- C7: confirmed. Decoding the finite value 5 yields POS_INFINITY, decoding
-5 yields NEG_INFINITY, decoding the f32 literal 0.3 (the rational
10066330 / 2 ^ 25, strictly between 0 and 1) yields the positive NaN bucket,
and decoding its negation yields the negative NaN bucket. -/
theorem f3_decode_saturation_eval :
    f3_from_f32 (F32.fin false 5) = f3.INFINITY ∧
    f3_from_f32 (F32.fin true 5) = f3.NEG_INFINITY ∧
    f3_from_f32 (F32.fin false f32_lit_0_3) = f3.NAN ∧
    f3_from_f32 (F32.fin true f32_lit_0_3) = f3.NEG_NAN := by
  decide

/-- C8: confirmed. For the u1 type, addition panics exactly at b1 + b1,
subtraction panics exactly at b0 - b1, and division and remainder panic
exactly when the divisor is b0 (none models the panic); every other input
combination returns a value. -/
theorem u1_panic_policy :
    ∀ a b : u1,
      (u1.add a b = none ↔ (a = b1 ∧ b = b1)) ∧
      (u1.sub a b = none ↔ (a = b0 ∧ b = b1)) ∧
      (u1.div a b = none ↔ b = b0) ∧
      (u1.rem a b = none ↔ b = b0) := by
  intro a b
  obtain ⟨x⟩ := a
  obtain ⟨y⟩ := b
  cases x <;> cases y <;> decide

/-- C9: confirmed. Negation of an f3 value produces exactly the record whose
sign is the inverted sign bit and whose exponent and mantissa are unchanged,
and in particular it exchanges the NAN and NEG_NAN bit patterns. -/
theorem f3_neg_flips_sign_only :
    ∀ v : f3,
      f3.neg v = ⟨v.sign.not, v.exponent, v.mantissa⟩ ∧
      f3.neg f3.NAN = f3.NEG_NAN ∧
      f3.neg f3.NEG_NAN = f3.NAN :=
  fun _ => ⟨rfl, rfl, rfl⟩

/-- C10: confirmed. For every Nibble x, subtracting x from itself, which the
code performs as x.add(not x, One), returns the all-Zero nibble together with
carry_out One, over all 16 bit patterns. -/
theorem nibble_sub_self :
    ∀ x : Nibble, x.sub x = (⟨Bit.Zero, Bit.Zero, Bit.Zero, Bit.Zero⟩, Bit.One) := by
  intro x
  obtain ⟨a, b, c, d⟩ := x
  cases a <;> cases b <;> cases c <;> cases d <;> decide
